import Mathlib

/-!
Shallow embedding of `src/smart_job_application_assistant/resume_parser.py`
(class `ResumeParser`).  Python strings are modelled as `List Char`
(sequences of code points); the concrete `re` patterns of the source are
modelled by backtracking matchers that enumerate, at a given position, the
lengths the pattern can consume, in the backtracking preference order of
the Python `re` engine.  The spaCy NER engine is an external black box,
modelled as an oracle `Str → Except Str (List NEnt)` that either returns
the entity list (`doc.ents`, in document order) or fails (raises); the
`try`/`except` of `parse_resume` is modelled by converting an `Except`
error into `none`.  Character classes are modelled over the ASCII range
(all inputs of this development are ASCII).
-/

namespace SJA

abbrev Str := List Char

def nlc : Char := '\n'

/-- Python whitespace (`\s`, `str.strip`), ASCII range. -/
def isPySpace (c : Char) : Bool :=
  c = ' ' || c = '\t' || c = '\n' || c = '\r' || c = '\x0b' || c = '\x0c'

/-- Python `\w`, ASCII range. -/
def isWordChar (c : Char) : Bool := c.isAlphanum || c = '_'

def isDigitC (c : Char) : Bool := c.isDigit

/-- Python `str.lower` (ASCII). -/
def pyLower (s : Str) : Str := s.map Char.toLower

/-- Python `str.strip()`. -/
def pyStrip (s : Str) : Str :=
  ((s.dropWhile isPySpace).reverse.dropWhile isPySpace).reverse

/-- Python truthiness of an optional string: `None` and `""` are falsy. -/
def pyTruthy : Option Str → Bool
  | none => false
  | some s => !s.isEmpty

/-- Prepend a character to the first piece of a split result. -/
def consHead (c : Char) : List Str → List Str
  | [] => [[c]]
  | h :: r => (c :: h) :: r

/-- Python `text.split('\n')`. -/
def splitLines : Str → List Str
  | [] => [[]]
  | c :: t => if c = nlc then [] :: splitLines t else consHead c (splitLines t)

/-- Python `text.split('\n\n')`: cut at each non-overlapping occurrence of
the exact separator `"\n\n"`, scanning left to right. -/
def splitParas : Str → List Str
  | [] => [[]]
  | [c] => [[c]]
  | c :: d :: t =>
      if c = nlc ∧ d = nlc then [] :: splitParas t
      else consHead c (splitParas (d :: t))

/-- A regex matcher: at a position of the full text, the list of lengths
the pattern can consume there, in backtracking preference order. -/
def RePat := Str → Nat → List Nat

/-- Single character of a class. -/
def pchar (p : Char → Bool) : RePat := fun full pos =>
  match full.drop pos with
  | c :: _ => if p c then [1] else []
  | [] => []

/-- Literal string. -/
def pstr (s : Str) : RePat := fun full pos =>
  if s.isPrefixOf (full.drop pos) then [s.length] else []

/-- Concatenation. -/
def pseq (a b : RePat) : RePat := fun full pos =>
  (a full pos).flatMap fun n => (b full (pos + n)).map (n + ·)

/-- Alternation, left preferred. -/
def palt (a b : RePat) : RePat := fun full pos => a full pos ++ b full pos

/-- Greedy `?`. -/
def popt (a : RePat) : RePat := fun full pos => a full pos ++ [0]

def countWhile (p : Char → Bool) : Str → Nat
  | [] => 0
  | c :: t => if p c then countWhile p t + 1 else 0

/-- Greedy counted repetition `{lo,hi}` of a character class. -/
def prepRange (p : Char → Bool) (lo hi : Nat) : RePat := fun full pos =>
  let k := min hi (countWhile p (full.drop pos))
  ((List.range (k + 1)).reverse).filter (fun n => lo ≤ n)

/-- Greedy unbounded repetition `{lo,}` of a character class
(`+` is `{1,}`). -/
def prepAtLeast (p : Char → Bool) (lo : Nat) : RePat := fun full pos =>
  let k := countWhile p (full.drop pos)
  ((List.range (k + 1)).reverse).filter (fun n => lo ≤ n)

/-- `\b` word boundary (zero-width). -/
def pbound : RePat := fun full pos =>
  let before := match (full.take pos).getLast? with
    | some c => isWordChar c
    | none => false
  let after := match full.drop pos with
    | c :: _ => isWordChar c
    | [] => false
  if before ≠ after then [0] else []

/-- Local-part class of `EMAIL_PATTERN`: `[A-Za-z0-9._%+-]`. -/
def emailLocalChar (c : Char) : Bool :=
  c.isAlphanum || c = '.' || c = '_' || c = '%' || c = '+' || c = '-'

/-- Domain class of `EMAIL_PATTERN`: `[A-Za-z0-9.-]`. -/
def emailDomChar (c : Char) : Bool := c.isAlphanum || c = '.' || c = '-'

/-- TLD class of `EMAIL_PATTERN`: `[A-Z|a-z]` — this class of the source
contains a literal `|` character. -/
def tldChar (c : Char) : Bool :=
  decide ('A' ≤ c ∧ c ≤ 'Z') || c = '|' || decide ('a' ≤ c ∧ c ≤ 'z')

/-- `EMAIL_PATTERN = \b[A-Za-z0-9._%+-]+@[A-Za-z0-9.-]+\.[A-Z|a-z]{2,}\b`. -/
def emailPat : RePat :=
  pseq pbound (pseq (prepAtLeast emailLocalChar 1)
    (pseq (pchar (fun c => c = '@')) (pseq (prepAtLeast emailDomChar 1)
      (pseq (pchar (fun c => c = '.')) (pseq (prepAtLeast tldChar 2) pbound)))))

/-- Separator class `[-.\s]` of `PHONE_PATTERN`. -/
def sepChar (c : Char) : Bool := c = '-' || c = '.' || isPySpace c

/-- `PHONE_PATTERN = (?:\+\d{1,3}[-.\s]?)?\(?\d{3}\)?[-.\s]?\d{3}[-.\s]?\d{4}`. -/
def phonePat : RePat :=
  pseq (popt (pseq (pchar (fun c => c = '+'))
        (pseq (prepRange isDigitC 1 3) (popt (pchar sepChar)))))
    (pseq (popt (pchar (fun c => c = '(')))
      (pseq (prepRange isDigitC 3 3)
        (pseq (popt (pchar (fun c => c = ')')))
          (pseq (popt (pchar sepChar))
            (pseq (prepRange isDigitC 3 3)
              (pseq (popt (pchar sepChar)) (prepRange isDigitC 4 4)))))))

/-- `LINKEDIN_PATTERN = linkedin\.com/in/[\w-]+`. -/
def linkedinPat : RePat :=
  pseq (pstr (("linkedin.com/in/").data))
    (prepAtLeast (fun c => isWordChar c || c = '-') 1)

/-- `GITHUB_PATTERN = github\.com/[\w-]+`. -/
def githubPat : RePat :=
  pseq (pstr (("github.com/").data))
    (prepAtLeast (fun c => isWordChar c || c = '-') 1)

/-- One month alternative of `DATE_PATTERN`, e.g. `Jan(?:uary)?`. -/
def monthAlt (short rest : Str) : RePat := pseq (pstr short) (popt (pstr rest))

/-- The month alternation of `DATE_PATTERN`, alternatives in source order. -/
def monthPat : RePat :=
  palt (monthAlt (("Jan").data) (("uary").data))
  (palt (monthAlt (("Feb").data) (("ruary").data))
  (palt (monthAlt (("Mar").data) (("ch").data))
  (palt (monthAlt (("Apr").data) (("il").data))
  (palt (pstr (("May").data))
  (palt (monthAlt (("Jun").data) (("e").data))
  (palt (monthAlt (("Jul").data) (("y").data))
  (palt (monthAlt (("Aug").data) (("ust").data))
  (palt (monthAlt (("Sep").data) (("tember").data))
  (palt (monthAlt (("Oct").data) (("ober").data))
  (palt (monthAlt (("Nov").data) (("ember").data))
  (monthAlt (("Dec").data) (("ember").data))))))))))))

/-- `DATE_PATTERN = (?:Jan(?:uary)?|...|Dec(?:ember)?)\s+\d{4}`. -/
def datePat : RePat :=
  pseq monthPat (pseq (prepAtLeast isPySpace 1) (prepRange isDigitC 4 4))

/-- Scan positions `i, i+1, ...` for the first one where the pattern
matches; the fuel argument bounds the scan (`re.search`). -/
def searchAux (m : RePat) (full : Str) : Nat → Nat → Option (Nat × Nat)
  | 0, _ => none
  | f + 1, i =>
      if i ≤ full.length then
        match m full i with
        | [] => searchAux m full f (i + 1)
        | n :: _ => some (i, n)
      else none

/-- `re.search(pat, full)`: text of the leftmost match, if any. -/
def reSearch (m : RePat) (full : Str) : Option Str :=
  (searchAux m full (full.length + 1) 0).map fun p => (full.drop p.1).take p.2

/-- Scanner of `re.findall`: leftmost non-overlapping matches. -/
def findallAux (m : RePat) (full : Str) : Nat → Nat → List Str
  | 0, _ => []
  | f + 1, i =>
      if i ≤ full.length then
        match m full i with
        | [] => findallAux m full f (i + 1)
        | n :: _ => ((full.drop i).take n) :: findallAux m full f (i + max n 1)
      else []

/-- `re.findall(pat, full)` (the patterns used here have no capturing
group consulted by `findall`, hence full match texts are returned). -/
def findall (m : RePat) (full : Str) : List Str :=
  findallAux m full (full.length + 1) 0

/-- Does a match of `(19|20)\d{2}|present|current` start right here?  A
suffix starts a match iff it begins with `19` or `20` followed by two
digits, or with the literal substring `present` or `current`. -/
def trigHeadB (v : Str) : Bool :=
  (match v with
   | c1 :: c2 :: c3 :: c4 :: _ =>
       ((c1 == '1' && c2 == '9') || (c1 == '2' && c2 == '0'))
         && isDigitC c3 && isDigitC c4
   | _ => false)
  || (("present").data).isPrefixOf v || (("current").data).isPrefixOf v

/-- `re.search(r'(19|20)\d{2}|present|current', paragraph.lower())`
viewed as the existence of a position where the pattern matches. -/
def isTrigger (p : Str) : Bool := ((pyLower p).tails).any trigHeadB

/-- `EDUCATION_TERMS` of the source, verbatim. -/
def EDUCATION_TERMS : List Str :=
  [("bachelor").data, ("master").data, ("phd").data, ("doctorate").data,
   ("bs").data, ("ms").data, ("ba").data, ("ma").data,
   ("b.tech").data, ("m.tech").data, ("b.e.").data, ("m.e.").data,
   ("b.sc").data, ("m.sc").data,
   ("university").data, ("college").data, ("institute").data, ("school").data]

/-- Python substring containment `sub in hay`. -/
def containsSub (sub hay : Str) : Bool :=
  hay.tails.any (fun t => sub.isPrefixOf t)

/-- `any(term in s.lower() for term in EDUCATION_TERMS)`. -/
def hasEduTerm (s : Str) : Bool :=
  EDUCATION_TERMS.any (fun t => containsSub t (pyLower s))

/-- A named entity produced by the NER engine: span text and type label. -/
structure NEnt where
  text : Str
  label : Str
deriving DecidableEq, Repr

/-- The NER engine (`nlp`), as an oracle: entity list in document order,
or a raised error. -/
def NerOracle := Str → Except Str (List NEnt)

structure ContactInfo where
  email : Option Str
  phone : Option Str
  linkedin : Option Str
  github : Option Str
  location : Option Str
deriving DecidableEq, Repr

structure EducationEntry where
  degree : Option Str
  institution : Option Str
  graduation_date : Option Str
  gpa : Option Str
deriving DecidableEq, Repr

structure ExperienceEntry where
  title : Option Str
  company : Option Str
  dates : List Str
  description : List Str
deriving DecidableEq, Repr

structure Metadata where
  filename : Str
  parsed_date : Str
  parser_version : Str
deriving DecidableEq, Repr

structure ResumeDocument where
  contact_info : ContactInfo
  education : List EducationEntry
  experience : List ExperienceEntry
  metadata : Metadata
deriving DecidableEq, Repr

/-- First `ORG`-labelled entity, if any (`for ent in doc.ents: if
ent.label_ == 'ORG': ...; break`). -/
def firstOrg (ents : List NEnt) : Option Str :=
  (ents.find? (fun e => e.label == ("ORG").data)).map NEnt.text

/-- `ResumeParser.extract_contact_info`: one `re.search` per pattern over
the whole text, plus the first `GPE`/`LOC` entity of `nlp(text[:1000])`. -/
def extract_contact_info (o : NerOracle) (text : Str) : Except Str ContactInfo :=
  match o (text.take 1000) with
  | .error err => .error err
  | .ok ents =>
      .ok { email := reSearch emailPat text
            phone := reSearch phonePat text
            linkedin := reSearch linkedinPat text
            github := reSearch githubPat text
            location := (ents.find? (fun e =>
                e.label == ("GPE").data || e.label == ("LOC").data)).map NEnt.text }

/-- The candidate entry built from a qualified education paragraph: all
`DATE_PATTERN` matches with the last one as graduation date, first `ORG`
entity as institution, first keyword-bearing line (stripped) as degree. -/
def eduEntryOf (p : Str) (ents : List NEnt) : EducationEntry :=
  { degree := ((splitLines p).find? hasEduTerm).map pyStrip
    institution := firstOrg ents
    graduation_date := (findall datePat p).getLast?
    gpa := none }

/-- The body of the `extract_education` loop for one paragraph: `none`
when the paragraph is skipped, `some e` when an entry is appended (the
append guard is the Python truthiness test `if degree or institution`). -/
def processEduParagraph (o : NerOracle) (p : Str) :
    Except Str (Option EducationEntry) :=
  if hasEduTerm p then
    match o p with
    | .error err => .error err
    | .ok ents =>
        if pyTruthy (eduEntryOf p ents).degree
            || pyTruthy (eduEntryOf p ents).institution
        then .ok (some (eduEntryOf p ents))
        else .ok none
  else .ok none

/-- The `extract_education` loop over the paragraph list. -/
def eduFold (o : NerOracle) : List Str → Except Str (List EducationEntry)
  | [] => .ok []
  | p :: ps =>
      match processEduParagraph o p with
      | .error err => .error err
      | .ok h =>
          match eduFold o ps with
          | .error err => .error err
          | .ok rest => .ok (match h with | some e => e :: rest | none => rest)

/-- `ResumeParser.extract_education`. -/
def extract_education (o : NerOracle) (text : Str) :
    Except Str (List EducationEntry) :=
  eduFold o (splitParas text)

/-- The fresh entry built at a trigger paragraph: all `DATE_PATTERN`
matches, first `ORG` entity, first line stripped as title. -/
def mkExpEntry (p : Str) (ents : List NEnt) : ExperienceEntry :=
  { title := match splitLines p with | [] => none | l :: _ => some (pyStrip l)
    company := firstOrg ents
    dates := findall datePat p
    description := [] }

/-- Flushing the open entry in front of the remaining output
(`if current_experience: experience_list.append(current_experience)`,
reformulated for the right fold over the remaining paragraphs). -/
def flushInto (cur : Option ExperienceEntry) (rest : List ExperienceEntry) :
    List ExperienceEntry :=
  match cur with | some c => c :: rest | none => rest

/-- The `extract_experience` state machine: `cur` is the open entry,
flushed at the next trigger and at end of input. -/
def expFold (o : NerOracle) :
    Option ExperienceEntry → List Str → Except Str (List ExperienceEntry)
  | cur, [] => .ok (flushInto cur [])
  | cur, p :: ps =>
      if isTrigger p then
        match o p with
        | .error err => .error err
        | .ok ents => (expFold o (some (mkExpEntry p ents)) ps).map (flushInto cur)
      else
        match cur with
        | some c =>
            expFold o (some { c with description := c.description ++ [pyStrip p] }) ps
        | none => expFold o none ps

/-- `ResumeParser.extract_experience`. -/
def extract_experience (o : NerOracle) (text : Str) :
    Except Str (List ExperienceEntry) :=
  expFold o none (splitParas text)

/-- The three extractor calls of `parse_resume`, in source order; an
error of any stage propagates (a raised exception). -/
def runExtractors (o : NerOracle) (text : Str) :
    Except Str (ContactInfo × List EducationEntry × List ExperienceEntry) :=
  match extract_contact_info o text with
  | .error err => .error err
  | .ok ci =>
      match extract_education o text with
      | .error err => .error err
      | .ok ed =>
          match extract_experience o text with
          | .error err => .error err
          | .ok ex => .ok (ci, ed, ex)

/-- `ResumeParser.parse_resume`, taking the already-extracted text: the
`if not text: raise ValueError(...)` guard (true exactly for the empty
string), then the three extractors; the surrounding `try`/`except`
converts every raised error into `None`.  `fname` models
`Path(pdf_path).name` and `now` models `datetime.now().isoformat()`. -/
def parse_resume (o : NerOracle) (fname now text : Str) : Option ResumeDocument :=
  if text = [] then none
  else
    match runExtractors o text with
    | .error _ => none
    | .ok (ci, ed, ex) =>
        some { contact_info := ci, education := ed, experience := ex,
               metadata := { filename := fname, parsed_date := now,
                             parser_version := ("1.0.0").data } }

/-- Is there a 4-digit token starting `19`/`20` at position `i`: digits at
`i..i+3`, no digit adjacent on either side (claim-side reading of C4). -/
def fourDigitTokenAt (s : Str) (i : Nat) : Bool :=
  (match s.drop i with
   | c1 :: c2 :: c3 :: c4 :: rest =>
       ((c1 == '1' && c2 == '9') || (c1 == '2' && c2 == '0'))
         && isDigitC c3 && isDigitC c4
         && (match rest with | c5 :: _ => !isDigitC c5 | [] => true)
   | _ => false)
  && (i == 0 || (match s.drop (i - 1) with
                 | c0 :: _ => !isDigitC c0
                 | [] => true))

/-- Does the literal word `w` occur at position `i`, delimited by
non-alphanumeric characters (claim-side reading of C4). -/
def wordOccursAt (w s : Str) (i : Nat) : Bool :=
  w.isPrefixOf (s.drop i)
  && (i == 0 || (match s.drop (i - 1) with
                 | c0 :: _ => !c0.isAlphanum
                 | [] => true))
  && (match s.drop (i + w.length) with
      | c :: _ => !c.isAlphanum
      | [] => true)

/-- The new-entry trigger as the words of claim C4 read it: the
lowercased text contains a 4-digit token beginning `19` or `20`, or the
literal words `present` or `current` — embedded occurrences excluded.
This is the claim-side definition, to be compared with `isTrigger`. -/
def specTrigger (p : Str) : Bool :=
  let s := pyLower p
  (List.range (s.length + 1)).any (fun i =>
    fourDigitTokenAt s i
      || wordOccursAt (("present").data) s i
      || wordOccursAt (("current").data) s i)

/-- `r` is the first (leftmost) match of `m` in `full`, or `none` when no
position of the text starts a match. -/
def firstMatchSpec (m : RePat) (full : Str) : Option Str → Prop
  | none => ∀ j, j ≤ full.length → m full j = []
  | some s => ∃ k n rest, m full k = n :: rest ∧ (∀ j, j < k → m full j = []) ∧
      s = (full.drop k).take n

/-- A benign NER oracle: always succeeds with no entities. -/
def o0 : NerOracle := fun _ => .ok []

/-- Scenario text of claim C5 (five paragraphs joined by blank lines). -/
def c5text : Str :=
  ("Backend Engineer\nAcme Corp\n\n2019 - 2022\nBuilt services.\n\nLed a team of 5.\n\nIntern\nWidgetCo\n\n2017 - 2018").data

def c5p2 : Str := ("2019 - 2022\nBuilt services.").data

def c5p5 : Str := ("2017 - 2018").data

/-- Scenario text of claim C6. -/
def c6text : Str := ("call me at 555-111-2222 or 555-333-4444").data

/-- Scenario paragraph of claim C8. -/
def c8para : Str :=
  ("Bachelor of Science in Computer Science\nState University\nMay 2020").data

lemma consHead_ne_nil (c : Char) (l : List Str) : consHead c l ≠ [] := by
  cases l <;> simp [consHead]

lemma splitLines_ne_nil (s : Str) : splitLines s ≠ [] := by
  cases s with
  | nil => simp [splitLines]
  | cons c t =>
    simp only [splitLines]
    split
    · simp
    · exact consHead_ne_nil _ _

lemma pyTruthy_ne_none {x : Option Str} (h : pyTruthy x = true) : x ≠ none := by
  cases x <;> simp [pyTruthy] at h ⊢

lemma processEduParagraph_ok_some {o : NerOracle} {p : Str} {e : EducationEntry}
    (h : processEduParagraph o p = .ok (some e)) :
    (∃ ents, o p = .ok ents ∧ e = eduEntryOf p ents) ∧
      (pyTruthy e.degree || pyTruthy e.institution) = true := by
  unfold processEduParagraph at h
  by_cases hq : hasEduTerm p
  · rw [if_pos hq] at h
    cases ho : o p with
    | error err => rw [ho] at h; exact Except.noConfusion h
    | ok ents =>
      rw [ho] at h
      dsimp only at h
      by_cases hg : (pyTruthy (eduEntryOf p ents).degree
          || pyTruthy (eduEntryOf p ents).institution) = true
      · rw [if_pos hg] at h
        simp only [Except.ok.injEq, Option.some.injEq] at h
        subst h
        exact ⟨⟨ents, rfl, rfl⟩, hg⟩
      · rw [if_neg hg] at h
        simp at h
  · rw [if_neg hq] at h
    simp at h

lemma eduFold_ok_truthy {o : NerOracle} :
    ∀ (ps : List Str) {l : List EducationEntry}, eduFold o ps = .ok l →
      ∀ e ∈ l, (pyTruthy e.degree || pyTruthy e.institution) = true := by
  intro ps
  induction ps with
  | nil =>
    intro l h e he
    simp only [eduFold, Except.ok.injEq] at h
    subst h
    simp at he
  | cons p ps ih =>
    intro l h e he
    unfold eduFold at h
    cases h1 : processEduParagraph o p with
    | error err => rw [h1] at h; cases h
    | ok hd =>
      rw [h1] at h
      cases h2 : eduFold o ps with
      | error err => rw [h2] at h; cases h
      | ok rest =>
        rw [h2] at h
        cases hd with
        | none =>
          simp only [Except.ok.injEq] at h
          subst h
          exact ih h2 e he
        | some e0 =>
          simp only [Except.ok.injEq] at h
          subst h
          rcases List.mem_cons.mp he with rfl | hmem
          · exact (processEduParagraph_ok_some h1).2
          · exact ih h2 e hmem

lemma searchAux_none_spec (m : RePat) (full : Str) :
    ∀ f i, full.length + 1 ≤ i + f → searchAux m full f i = none →
      ∀ j, i ≤ j → j ≤ full.length → m full j = [] := by
  intro f
  induction f with
  | zero =>
    intro i hif _ j hij hj
    exact absurd hj (by omega)
  | succ f ih =>
    intro i hif hnone j hij hj
    rw [searchAux, if_pos (le_trans hij hj)] at hnone
    cases hm : m full i with
    | nil =>
      rw [hm] at hnone
      rcases eq_or_lt_of_le hij with rfl | hlt
      · exact hm
      · exact ih (i + 1) (by omega) hnone j (by omega) hj
    | cons n t =>
      rw [hm] at hnone
      cases hnone

lemma searchAux_some_spec (m : RePat) (full : Str) :
    ∀ f i k n, searchAux m full f i = some (k, n) →
      i ≤ k ∧ k ≤ full.length ∧ (∃ rest, m full k = n :: rest) ∧
        ∀ j, i ≤ j → j < k → m full j = [] := by
  intro f
  induction f with
  | zero => intro i k n h; simp [searchAux] at h
  | succ f ih =>
    intro i k n h
    rw [searchAux] at h
    by_cases hi : i ≤ full.length
    · rw [if_pos hi] at h
      cases hm : m full i with
      | nil =>
        rw [hm] at h
        obtain ⟨h1, h2, h3, h4⟩ := ih (i + 1) k n h
        refine ⟨by omega, h2, h3, fun j hij hjk => ?_⟩
        rcases eq_or_lt_of_le hij with rfl | hlt
        · exact hm
        · exact h4 j (by omega) hjk
      | cons a t =>
        rw [hm] at h
        obtain ⟨rfl, rfl⟩ : i = k ∧ a = n := by simpa using h
        exact ⟨le_refl _, hi, ⟨t, hm⟩, fun j hij hjk => absurd hjk (by omega)⟩
    · rw [if_neg hi] at h
      cases h

lemma reSearch_spec (m : RePat) (full : Str) :
    firstMatchSpec m full (reSearch m full) := by
  unfold reSearch
  cases hs : searchAux m full (full.length + 1) 0 with
  | none =>
    show firstMatchSpec m full none
    intro j hj
    exact searchAux_none_spec m full _ 0 (by omega) hs j (Nat.zero_le _) hj
  | some pr =>
    obtain ⟨k, n⟩ := pr
    obtain ⟨-, h2, ⟨rest, h3⟩, h4⟩ := searchAux_some_spec m full _ 0 k n hs
    show firstMatchSpec m full (some _)
    exact ⟨k, n, rest, h3, fun j hj => h4 j (Nat.zero_le _) hj, rfl⟩

lemma extract_contact_info_ok {o : NerOracle} {text : Str} {ci : ContactInfo}
    (h : extract_contact_info o text = .ok ci) :
    ci.email = reSearch emailPat text ∧ ci.phone = reSearch phonePat text ∧
      ci.linkedin = reSearch linkedinPat text ∧ ci.github = reSearch githubPat text := by
  unfold extract_contact_info at h
  cases ho : o (text.take 1000) with
  | error err => rw [ho] at h; cases h
  | ok ents =>
    rw [ho] at h
    simp only [Except.ok.injEq] at h
    subst h
    exact ⟨rfl, rfl, rfl, rfl⟩

lemma splitParas_append (a b : Str) (h : ¬ ([nlc, nlc] <:+: (a ++ [nlc]))) :
    splitParas (a ++ [nlc, nlc] ++ b) = a :: splitParas b := by
  induction a with
  | nil =>
    show splitParas (nlc :: nlc :: b) = [] :: splitParas b
    simp [splitParas]
  | cons x a ih =>
    cases a with
    | nil =>
      have hx : ¬ (x = nlc ∧ nlc = nlc) := by
        rintro ⟨rfl, -⟩
        exact h List.infix_rfl
      show splitParas (x :: nlc :: nlc :: b) = [x] :: splitParas b
      rw [splitParas, if_neg hx]
      have hrest : splitParas (nlc :: nlc :: b) = [] :: splitParas b := by
        simp [splitParas]
      rw [hrest]
      rfl
    | cons y a2 =>
      have hx : ¬ (x = nlc ∧ y = nlc) := by
        rintro ⟨rfl, rfl⟩
        exact h (List.IsPrefix.isInfix ⟨a2 ++ [nlc], by simp⟩)
      have hsub : ¬ ([nlc, nlc] <:+: ((y :: a2) ++ [nlc])) := by
        intro hin
        exact h (hin.trans (List.IsSuffix.isInfix (List.suffix_cons x _)))
      show splitParas (x :: y :: (a2 ++ [nlc, nlc] ++ b)) = (x :: y :: a2) :: splitParas b
      rw [splitParas, if_neg hx]
      have := ih hsub
      rw [show y :: (a2 ++ [nlc, nlc] ++ b) = (y :: a2) ++ [nlc, nlc] ++ b from rfl, this]
      rfl

lemma expFold_nil (o : NerOracle) (cur : Option ExperienceEntry) :
    expFold o cur [] = .ok (flushInto cur []) := rfl

lemma expFold_cons (o : NerOracle) (cur : Option ExperienceEntry) (p : Str)
    (ps : List Str) :
    expFold o cur (p :: ps) =
      if isTrigger p then
        match o p with
        | .error err => .error err
        | .ok ents => (expFold o (some (mkExpEntry p ents)) ps).map (flushInto cur)
      else
        match cur with
        | some c =>
            expFold o (some { c with description := c.description ++ [pyStrip p] }) ps
        | none => expFold o none ps := rfl

lemma expFold_cons_trig {o : NerOracle} {p : Str} {ents : List NEnt} {ps : List Str}
    (cur : Option ExperienceEntry) (hp : isTrigger p = true) (ho : o p = .ok ents) :
    expFold o cur (p :: ps) =
      (expFold o (some (mkExpEntry p ents)) ps).map (flushInto cur) := by
  rw [expFold_cons, hp]
  simp only [if_true]
  rw [ho]

lemma expFold_cons_trig_err {o : NerOracle} {p err : Str} {ps : List Str}
    (cur : Option ExperienceEntry) (hp : isTrigger p = true) (ho : o p = .error err) :
    expFold o cur (p :: ps) = .error err := by
  rw [expFold_cons, hp]
  simp only [if_true]
  rw [ho]

lemma expFold_cons_nontrig_some {o : NerOracle} {p : Str} {ps : List Str}
    (c : ExperienceEntry) (hp : isTrigger p = false) :
    expFold o (some c) (p :: ps) =
      expFold o (some { c with description := c.description ++ [pyStrip p] }) ps := by
  rw [expFold_cons, hp]
  simp only [Bool.false_eq_true, if_false]

lemma expFold_cons_nontrig_none {o : NerOracle} {p : Str} {ps : List Str}
    (hp : isTrigger p = false) :
    expFold o none (p :: ps) = expFold o none ps := by
  rw [expFold_cons, hp]
  simp only [Bool.false_eq_true, if_false]

/-- Every entry title comes from a trigger paragraph satisfying `W`: it is
the stripped first line of that paragraph. -/
def titleFrom (W : Str → Prop) (e : ExperienceEntry) : Prop :=
  ∃ p, W p ∧ isTrigger p = true ∧
    ∃ hd tl, splitLines p = hd :: tl ∧ e.title = some (pyStrip hd)

lemma mkExpEntry_titleFrom {W : Str → Prop} {p : Str} (ents : List NEnt)
    (hW : W p) (hp : isTrigger p = true) : titleFrom W (mkExpEntry p ents) := by
  cases hsl : splitLines p with
  | nil => exact absurd hsl (splitLines_ne_nil p)
  | cons hd tl =>
    exact ⟨p, hW, hp, hd, tl, hsl, by simp [mkExpEntry, hsl]⟩

lemma titleFrom_update {W : Str → Prop} {c : ExperienceEntry} {p : Str}
    (h : titleFrom W c) :
    titleFrom W { c with description := c.description ++ [pyStrip p] } := h

lemma expFold_titleFrom {o : NerOracle} {W : Str → Prop} :
    ∀ (ps : List Str) (cur : Option ExperienceEntry) (l : List ExperienceEntry),
      (∀ p ∈ ps, W p) → (∀ c, cur = some c → titleFrom W c) →
      expFold o cur ps = .ok l → ∀ e ∈ l, titleFrom W e := by
  intro ps
  induction ps with
  | nil =>
    intro cur l _ hcur h e he
    cases cur with
    | none =>
      have hl := Except.ok.inj h
      subst hl
      exact absurd he (List.not_mem_nil e)
    | some c =>
      have hl := Except.ok.inj h
      subst hl
      rw [List.mem_singleton.mp he]
      exact hcur c rfl
  | cons p ps ih =>
    intro cur l hW hcur h e he
    cases hpb : isTrigger p with
    | true =>
      cases ho : o p with
      | error err =>
        rw [expFold_cons_trig_err cur hpb ho] at h
        exact Except.noConfusion h
      | ok ents =>
        rw [expFold_cons_trig cur hpb ho] at h
        cases hrest : expFold o (some (mkExpEntry p ents)) ps with
        | error err =>
          rw [hrest] at h
          exact Except.noConfusion h
        | ok rest =>
          rw [hrest] at h
          have hl : flushInto cur rest = l := Except.ok.inj h
          subst hl
          have hrec : ∀ e ∈ rest, titleFrom W e :=
            ih (some (mkExpEntry p ents)) rest
              (fun q hq => hW q (List.mem_cons_of_mem _ hq))
              (fun c hc => by
                cases hc
                exact mkExpEntry_titleFrom ents (hW p (List.mem_cons_self _ _)) hpb)
              hrest
          cases cur with
          | none => exact hrec e he
          | some c =>
            rcases List.mem_cons.mp he with rfl | hmem
            · exact hcur e rfl
            · exact hrec e hmem
    | false =>
      cases cur with
      | some c =>
        rw [expFold_cons_nontrig_some c hpb] at h
        exact ih _ l (fun q hq => hW q (List.mem_cons_of_mem _ hq))
          (fun c' hc' => by cases hc'; exact titleFrom_update (hcur c rfl)) h e he
      | none =>
        rw [expFold_cons_nontrig_none hpb] at h
        exact ih none l (fun q hq => hW q (List.mem_cons_of_mem _ hq))
          (by simp) h e he

/-- C1: for every non-empty extracted text, `parse_resume` returns a
`ResumeDocument` — a record carrying all four top-level components
(contact info, education, experience, metadata) — or `none`; it never
surfaces an error value, and any extractor-stage failure (an `Except`
error of `runExtractors`, i.e. a raised exception in the source) is
converted to the null result. -/
theorem parse_returns_document_or_null (o : NerOracle) (fname now text : Str)
    (hne : text ≠ []) :
    ((∃ ci ed ex md, parse_resume o fname now text = some ⟨ci, ed, ex, md⟩) ∨
      parse_resume o fname now text = none) ∧
    (∀ err, runExtractors o text = .error err →
      parse_resume o fname now text = none) := by
  constructor
  · unfold parse_resume
    rw [if_neg hne]
    cases hr : runExtractors o text with
    | error err => exact Or.inr rfl
    | ok v =>
      obtain ⟨ci, ed, ex⟩ := v
      exact Or.inl ⟨ci, ed, ex, _, rfl⟩
  · intro err herr
    unfold parse_resume
    rw [if_neg hne, herr]

/-- Witness for C1 at the concrete text `"x"` with the benign oracle. -/
theorem parse_returns_document_or_null_w :
    ((("x").data : Str) ≠ []) ∧
    (((∃ ci ed ex md, parse_resume o0 [] [] (("x").data) = some ⟨ci, ed, ex, md⟩) ∨
        parse_resume o0 [] [] (("x").data) = none) ∧
      (∀ err, runExtractors o0 (("x").data) = .error err →
        parse_resume o0 [] [] (("x").data) = none)) :=
  ⟨by decide, parse_returns_document_or_null o0 [] [] (("x").data) (by decide)⟩

/-- C2 counterexample: the whitespace-only text `" "` is empty after
trimming, yet with a benign NER oracle `parse_resume` returns a document,
not null — the emptiness guard of the code is Python `if not text`, which
tests `text == ""` without trimming. -/
theorem whitespace_only_text_still_parses :
    pyStrip ((" ").data) = [] ∧ parse_resume o0 [] [] ((" ").data) ≠ none := by
  decide

/-- C2 amended: the empty-input failure branch is taken exactly for the
empty string (not for whitespace-only text); for non-empty text,
`parse_resume` yields null precisely when an extractor stage fails. -/
theorem parse_null_iff_empty_or_failure (o : NerOracle) (fname now text : Str) :
    (text = [] → parse_resume o fname now text = none) ∧
    (text ≠ [] →
      (parse_resume o fname now text = none ↔
        ∃ err, runExtractors o text = .error err)) := by
  constructor
  · intro h
    unfold parse_resume
    rw [if_pos h]
  · intro h
    unfold parse_resume
    rw [if_neg h]
    cases hr : runExtractors o text with
    | error err => exact iff_of_true rfl ⟨err, rfl⟩
    | ok v =>
      obtain ⟨ci, ed, ex⟩ := v
      exact iff_of_false (fun hsome => Option.noConfusion hsome)
        (fun he => Except.noConfusion he.choose_spec)

/-- Witness for C2-amended at the empty text and the concrete text `"x"`. -/
theorem parse_null_iff_empty_or_failure_w :
    (parse_resume o0 [] [] [] = none) ∧
    ((("x").data : Str) ≠ []) ∧
    (parse_resume o0 [] [] (("x").data) = none ↔
      ∃ err, runExtractors o0 (("x").data) = .error err) :=
  ⟨(parse_null_iff_empty_or_failure o0 [] [] []).1 rfl, by decide,
    (parse_null_iff_empty_or_failure o0 [] [] (("x").data)).2 (by decide)⟩

/-- C3 counterexample: a run of four consecutive newlines does not
separate exactly two adjacent paragraphs — the split used by both
extractors (`splitParas`, i.e. `text.split('\n\n')`) cuts at each
occurrence of exactly two newlines, so `"a\n\n\n\nb"` yields three
paragraphs with an empty one in the middle. -/
theorem four_newlines_give_three_paragraphs :
    splitParas (("a\n\n\n\nb").data) = [("a").data, [], ("b").data] ∧
    (splitParas (("a\n\n\n\nb").data)).length ≠ 2 := by
  decide

/-- C3 amended: both extractors split the text into paragraphs at each
left-to-right non-overlapping occurrence of exactly two consecutive
newline characters; a separator of two or three newlines separates
exactly two adjacent paragraphs (with three, the third newline stays on
the second paragraph), while four newlines produce an extra empty
paragraph between the two. -/
theorem extractors_split_on_double_newline :
    (∀ (o : NerOracle) (t : Str), extract_education o t = eduFold o (splitParas t)) ∧
    (∀ (o : NerOracle) (t : Str),
      extract_experience o t = expFold o none (splitParas t)) ∧
    (∀ a b : Str, ¬ ([nlc, nlc] <:+: (a ++ [nlc])) →
      splitParas (a ++ [nlc, nlc] ++ b) = a :: splitParas b) ∧
    splitParas (("a\n\nb").data) = [("a").data, ("b").data] ∧
    splitParas (("a\n\n\nb").data) = [("a").data, ("\nb").data] ∧
    splitParas (("a\n\n\n\nb").data) = [("a").data, [], ("b").data] :=
  ⟨fun _ _ => rfl, fun _ _ => rfl, splitParas_append, by decide, by decide, by decide⟩

/-- Witness for C3-amended: the cut lemma applied at `a := "a"`,
`b := "b"`. -/
theorem extractors_split_on_double_newline_w :
    (¬ ([nlc, nlc] <:+: ((("a").data : Str) ++ [nlc]))) ∧
    splitParas ((("a").data : Str) ++ [nlc, nlc] ++ ("b").data) =
      ("a").data :: splitParas (("b").data) :=
  ⟨by decide, extractors_split_on_double_newline.2.2.1 (("a").data) (("b").data)
    (by decide)⟩

/-- C4 counterexample: the trigger test of the code is a raw substring
search, so `"concurrent"` (containing `"current"` inside a longer word)
and `"31999"` (containing `"1999"` inside a longer digit run) are
triggers, while the token/word reading of the claim (`specTrigger`)
rejects both. -/
theorem embedded_occurrences_do_trigger :
    isTrigger (("concurrent").data) = true ∧
    specTrigger (("concurrent").data) = false ∧
    isTrigger (("31999").data) = true ∧
    specTrigger (("31999").data) = false := by
  decide

/-- C4 amended: a paragraph is a new-entry trigger iff its lowercased
text contains, anywhere as a substring — embedded occurrences included —
`19` or `20` followed by two digits, or the literal substring `present`
or `current` (`trigHeadB` states exactly that a suffix starts with one of
these shapes). -/
theorem trigger_iff_contains (p : Str) :
    isTrigger p = true ↔ ∃ u v, pyLower p = u ++ v ∧ trigHeadB v = true := by
  unfold isTrigger
  rw [List.any_eq_true]
  constructor
  · rintro ⟨v, hv, hb⟩
    obtain ⟨u, hu⟩ := (List.mem_tails _ _).mp hv
    exact ⟨u, v, hu.symm, hb⟩
  · rintro ⟨u, v, he, hb⟩
    exact ⟨v, (List.mem_tails _ _).mpr ⟨u, he.symm⟩, hb⟩

/-- Witness for C4-amended at the concrete paragraph `"concurrent"`. -/
theorem trigger_iff_contains_w :
    ∃ u v, pyLower (("concurrent").data) = u ++ v ∧ trigHeadB v = true :=
  (trigger_iff_contains (("concurrent").data)).mp (by decide)

/-- C5: on the five-paragraph scenario text, the experience extractor
produces exactly two entries (paragraphs 2 and 5 are the triggers: they
contain year tokens), and the description sequence of the first entry
contains the non-trigger paragraph `"Led a team of 5."`; the oracle is
consulted only at the two trigger paragraphs, so only its values there
are assumed. -/
theorem experience_scenario_two_entries (o : NerOracle) (l1 l2 : List NEnt)
    (h1 : o c5p2 = .ok l1) (h2 : o c5p5 = .ok l2) :
    ∃ e1 e2, extract_experience o c5text = .ok [e1, e2] ∧
      (("Led a team of 5.").data) ∈ e1.description := by
  have hps : splitParas c5text =
      [("Backend Engineer\nAcme Corp").data, c5p2, ("Led a team of 5.").data,
       ("Intern\nWidgetCo").data, c5p5] := by decide
  have ht1 : isTrigger (("Backend Engineer\nAcme Corp").data) = false := by decide
  have ht2 : isTrigger c5p2 = true := by decide
  have ht3 : isTrigger (("Led a team of 5.").data) = false := by decide
  have ht4 : isTrigger (("Intern\nWidgetCo").data) = false := by decide
  have ht5 : isTrigger c5p5 = true := by decide
  unfold extract_experience
  rw [hps]
  rw [expFold_cons_nontrig_none ht1]
  rw [expFold_cons_trig none ht2 h1]
  rw [expFold_cons_nontrig_some _ ht3]
  rw [expFold_cons_nontrig_some _ ht4]
  rw [expFold_cons_trig (some _) ht5 h2]
  rw [expFold_nil]
  refine ⟨_, _, rfl, ?_⟩
  show (("Led a team of 5.").data) ∈
    (((mkExpEntry c5p2 l1).description ++ [pyStrip (("Led a team of 5.").data)])
      ++ [pyStrip (("Intern\nWidgetCo").data)])
  show (("Led a team of 5.").data) ∈
    [("Led a team of 5.").data, ("Intern\nWidgetCo").data]
  exact List.mem_cons_self _ _

/-- Witness for C5 with the benign oracle. -/
theorem experience_scenario_two_entries_w :
    (o0 c5p2 = .ok []) ∧ (o0 c5p5 = .ok []) ∧
    (∃ e1 e2, extract_experience o0 c5text = .ok [e1, e2] ∧
      (("Led a team of 5.").data) ∈ e1.description) :=
  ⟨rfl, rfl, experience_scenario_two_entries o0 [] [] rfl rfl⟩

/-- C6: each of the four regex contact fields (email, phone, linkedin,
github) equals the first match of its pattern over the whole text — no
position before it matches, and the field is null exactly when no
position matches at all; on the scenario text the phone field is the
first of the two numbers, never the later one. -/
theorem contact_fields_first_match (o : NerOracle) (text : Str) (ci : ContactInfo)
    (h : extract_contact_info o text = .ok ci) :
    firstMatchSpec emailPat text ci.email ∧
    firstMatchSpec phonePat text ci.phone ∧
    firstMatchSpec linkedinPat text ci.linkedin ∧
    firstMatchSpec githubPat text ci.github ∧
    (text = c6text → ci.phone = some (("555-111-2222").data)) := by
  obtain ⟨he, hp, hl, hg⟩ := extract_contact_info_ok h
  refine ⟨?_, ?_, ?_, ?_, ?_⟩
  · rw [he]; exact reSearch_spec _ _
  · rw [hp]; exact reSearch_spec _ _
  · rw [hl]; exact reSearch_spec _ _
  · rw [hg]; exact reSearch_spec _ _
  · rintro rfl
    rw [hp]
    decide

/-- Witness for C6 at the scenario text with the benign oracle. -/
theorem contact_fields_first_match_w :
    (extract_contact_info o0 c6text =
      .ok { email := none, phone := some (("555-111-2222").data),
            linkedin := none, github := none, location := none }) ∧
    (firstMatchSpec emailPat c6text none ∧
      firstMatchSpec phonePat c6text (some (("555-111-2222").data)) ∧
      firstMatchSpec linkedinPat c6text none ∧
      firstMatchSpec githubPat c6text none ∧
      (c6text = c6text →
        (some (("555-111-2222").data) : Option Str) =
          some (("555-111-2222").data))) :=
  ⟨rfl, contact_fields_first_match o0 c6text _ rfl⟩

/-- C7: every education entry in the output has a non-null degree or a
non-null institution (the append guard of the code even requires Python
truthiness of one of them), and a paragraph yielding neither a
keyword-bearing line nor an `ORG` entity contributes no entry. -/
theorem education_entry_has_degree_or_institution :
    (∀ (o : NerOracle) (text : Str) (l : List EducationEntry),
      extract_education o text = .ok l →
      ∀ e ∈ l, e.degree ≠ none ∨ e.institution ≠ none) ∧
    (∀ (o : NerOracle) (p : Str) (ents : List NEnt), o p = .ok ents →
      (splitLines p).find? hasEduTerm = none → firstOrg ents = none →
      processEduParagraph o p = .ok none) := by
  constructor
  · intro o text l h e he
    have ht := eduFold_ok_truthy (splitParas text) h e he
    rcases (Bool.or_eq_true _ _).mp ht with hd | hi
    · exact Or.inl (pyTruthy_ne_none hd)
    · exact Or.inr (pyTruthy_ne_none hi)
  · intro o p ents ho hdeg hinst
    unfold processEduParagraph
    by_cases hq : hasEduTerm p
    · rw [if_pos hq, ho]
      dsimp only
      have h1 : (eduEntryOf p ents).degree = none := by
        show ((splitLines p).find? hasEduTerm).map pyStrip = none
        rw [hdeg]
        rfl
      have h2 : (eduEntryOf p ents).institution = none := hinst
      have hcond : (pyTruthy (eduEntryOf p ents).degree
          || pyTruthy (eduEntryOf p ents).institution) = false := by
        rw [h1, h2]
        rfl
      rw [if_neg (by simp [hcond])]
    · rw [if_neg hq]

/-- Witness for C7: the invariant on a parsed text and the no-entry case
on a keyword-free paragraph. -/
theorem education_entry_has_degree_or_institution_w :
    (extract_education o0 (("x").data) = .ok []) ∧
    (∀ e ∈ ([] : List EducationEntry), e.degree ≠ none ∨ e.institution ≠ none) ∧
    (o0 (("zzz").data) = .ok []) ∧
    ((splitLines (("zzz").data)).find? hasEduTerm = none) ∧
    (firstOrg ([] : List NEnt) = none) ∧
    (processEduParagraph o0 (("zzz").data) = .ok none) :=
  ⟨rfl, education_entry_has_degree_or_institution.1 o0 (("x").data) [] rfl,
    rfl, by decide, rfl,
    education_entry_has_degree_or_institution.2 o0 (("zzz").data) [] rfl
      (by decide) rfl⟩

/-- C8: whenever a qualified paragraph produces an entry, its graduation
date is the last `DATE_PATTERN` match of the paragraph (`dates[-1]`,
null when there is no match); the scenario paragraph yields exactly the
match `"May 2020"`. -/
theorem graduation_date_is_last_date_match :
    (∀ (o : NerOracle) (p : Str) (e : EducationEntry),
      processEduParagraph o p = .ok (some e) →
      e.graduation_date = (findall datePat p).getLast?) ∧
    (findall datePat c8para = [("May 2020").data] ∧
      ∃ e, processEduParagraph o0 c8para = .ok (some e) ∧
        e.graduation_date = some (("May 2020").data)) := by
  constructor
  · intro o p e h
    obtain ⟨⟨ents, -, rfl⟩, -⟩ := processEduParagraph_ok_some h
    rfl
  · exact ⟨by decide, _, rfl, rfl⟩

/-- Witness for C8 at the scenario paragraph with the benign oracle. -/
theorem graduation_date_is_last_date_match_w :
    (processEduParagraph o0 c8para =
      .ok (some { degree := some (("Bachelor of Science in Computer Science").data),
                  institution := none,
                  graduation_date := some (("May 2020").data), gpa := none })) ∧
    ((some (("May 2020").data) : Option Str) = (findall datePat c8para).getLast?) :=
  ⟨rfl, graduation_date_is_last_date_match.1 o0 c8para _ rfl⟩

/-- C9: two parse runs on the same text and oracle differ at most in
`metadata.parsed_date` (the `parsed_timestamp` of the spec): they fail
together, and on success contact info, education, experience, filename
and the fixed parser version tag coincide. -/
theorem parse_idempotent_up_to_timestamp (o : NerOracle) (fname t1 t2 text : Str) :
    ((parse_resume o fname t1 text).isSome ↔
      (parse_resume o fname t2 text).isSome) ∧
    (∀ d1 d2, parse_resume o fname t1 text = some d1 →
      parse_resume o fname t2 text = some d2 →
      d1.contact_info = d2.contact_info ∧ d1.education = d2.education ∧
      d1.experience = d2.experience ∧
      d1.metadata.filename = d2.metadata.filename ∧
      d1.metadata.parser_version = d2.metadata.parser_version) := by
  unfold parse_resume
  by_cases ht : text = []
  · simp only [if_pos ht]
    exact ⟨by simp, fun d1 d2 h1 h2 => Option.noConfusion h1⟩
  · simp only [if_neg ht]
    cases hr : runExtractors o text with
    | error err =>
      exact ⟨by simp, fun d1 d2 h1 h2 => Option.noConfusion h1⟩
    | ok v =>
      obtain ⟨ci, ed, ex⟩ := v
      refine ⟨Iff.rfl, fun d1 d2 h1 h2 => ?_⟩
      cases Option.some.inj h1
      cases Option.some.inj h2
      exact ⟨rfl, rfl, rfl, rfl, rfl⟩

/-- Witness for C9 at concrete text and two distinct timestamps. -/
theorem parse_idempotent_up_to_timestamp_w :
    (((parse_resume o0 [] (("t1").data) (("x").data)).isSome ↔
        (parse_resume o0 [] (("t2").data) (("x").data)).isSome)) ∧
    (∃ d1 d2, parse_resume o0 [] (("t1").data) (("x").data) = some d1 ∧
      parse_resume o0 [] (("t2").data) (("x").data) = some d2 ∧
      (d1.contact_info = d2.contact_info ∧ d1.education = d2.education ∧
        d1.experience = d2.experience ∧
        d1.metadata.filename = d2.metadata.filename ∧
        d1.metadata.parser_version = d2.metadata.parser_version)) :=
  ⟨(parse_idempotent_up_to_timestamp o0 [] (("t1").data) (("t2").data)
      (("x").data)).1,
    _, _, rfl, rfl,
    (parse_idempotent_up_to_timestamp o0 [] (("t1").data) (("t2").data)
      (("x").data)).2 _ _ rfl rfl⟩

/-- C10: every emitted experience entry has a non-null title, equal to
the stripped first line of a trigger paragraph of the text (the one that
opened the entry) — `split('\n')` never yields an empty list, so the
title is always set even though the field is declared optional. -/
theorem experience_title_from_trigger_first_line (o : NerOracle) (text : Str)
    (l : List ExperienceEntry) (h : extract_experience o text = .ok l) :
    ∀ e ∈ l, e.title ≠ none ∧ ∃ p, p ∈ splitParas text ∧ isTrigger p = true ∧
      ∃ hd tl, splitLines p = hd :: tl ∧ e.title = some (pyStrip hd) := by
  intro e he
  have hmain := expFold_titleFrom (splitParas text) none l
    (fun p hp => hp) (by simp) h e he
  obtain ⟨p, hp, htr, hd, tl, hsl, ht⟩ := hmain
  refine ⟨?_, p, hp, htr, hd, tl, hsl, ht⟩
  rw [ht]
  simp

/-- Witness for C10 on a one-paragraph trigger text. -/
theorem experience_title_from_trigger_first_line_w :
    (extract_experience o0 (("May 2020").data) =
      .ok [{ title := some (("May 2020").data), company := none,
             dates := [("May 2020").data], description := [] }]) ∧
    ((some (("May 2020").data) : Option Str) ≠ none ∧
      ∃ p, p ∈ splitParas (("May 2020").data) ∧ isTrigger p = true ∧
        ∃ hd tl, splitLines p = hd :: tl ∧
          (some (("May 2020").data) : Option Str) = some (pyStrip hd)) :=
  ⟨rfl, experience_title_from_trigger_first_line o0 (("May 2020").data) _ rfl _
    (List.mem_singleton.mpr rfl)⟩

end SJA
